import Mathlib

set_option maxRecDepth 10000

/-!
Verification development for the asynchronous subagent job manager of the
codex-mcp-server repository.  The definitions below are a shallow embedding of
the TypeScript sources `src/jobs/job_manager.ts` and `src/tools/handlers.ts`:
JavaScript strings are modelled as Lean strings, JSON values as the inductive
`JsonV` (with an explicit `undefVal` constructor mirroring the JavaScript
undefined value), child-process side effects (the process handle and the
completion promise) are left outside the model, and every stateful operation
is modelled as an explicit function on the registry (a list of job records).
-/

/-! ## JSON values as decoded by JSON.parse, extended with undefined -/

inductive JsonV where
  | null
  | undefVal
  | bool (b : Bool)
  | num (n : Int)
  | str (s : String)
  | arr (xs : List JsonV)
  | obj (fields : List (String × JsonV))

/-- Property access `v[key]` in JavaScript: a missing property, or access on a
non-object, yields undefined. -/
def getField (v : JsonV) (key : String) : JsonV :=
  match v with
  | .obj fields =>
    match fields.lookup key with
    | some x => x
    | none => .undefVal
  | _ => .undefVal

/-- The values for which JavaScript `v && typeof v === 'object'` holds:
plain objects and arrays.  null fails the truthiness test, and every other
JSON value has a different typeof. -/
def isJsObjectLike (v : JsonV) : Bool :=
  match v with
  | .obj _ => true
  | .arr _ => true
  | _ => false

/-! ## JavaScript number/string helpers used by the job manager -/

/-- The whitespace characters skipped by Number.parseInt and trimmed by
String.prototype.trim (the common ASCII subset). -/
def isJsSpace (c : Char) : Bool :=
  c == ' ' || c == '\t' || c == '\n' || c == '\r' || c == '\x0b' || c == '\x0c'

/-- Accumulate the numeric value of a run of decimal digit characters. -/
def digitsVal (ds : List Char) : Nat :=
  ds.foldl (fun a c => a * 10 + (c.toNat - 48)) 0

/-- Parse a maximal run of leading decimal digits; none when there is no
digit (Number.parseInt would return NaN). -/
def parseDigits (ds : List Char) : Option Nat :=
  let t := ds.takeWhile Char.isDigit
  if t = [] then none else some (digitsVal t)

/-- Model of `Number.parseInt(s, 10)`: skip leading whitespace, read an
optional sign, then the longest run of decimal digits; `none` models NaN. -/
def jsParseInt (s : String) : Option Int :=
  let cs := s.data.dropWhile isJsSpace
  match cs with
  | [] => none
  | c :: rest =>
    if c = '-' then (parseDigits rest).map (fun n => -(n : Int))
    else if c = '+' then (parseDigits rest).map (fun n => (n : Int))
    else (parseDigits (c :: rest)).map (fun n => (n : Int))

/-- The decimal digit character for a single digit value. -/
def digitChar (d : Nat) : Char :=
  if d = 0 then '0' else if d = 1 then '1' else if d = 2 then '2'
  else if d = 3 then '3' else if d = 4 then '4' else if d = 5 then '5'
  else if d = 6 then '6' else if d = 7 then '7' else if d = 8 then '8'
  else '9'

/-- Little-endian run of decimal digit characters of `n`, driven by explicit
fuel so that the definition is structural and computes by reduction. -/
def natDigitsCore : Nat → Nat → List Char
  | 0, _ => []
  | fuel + 1, n =>
    if n < 10 then [digitChar n] else digitChar (n % 10) :: natDigitsCore fuel (n / 10)

/-- Model of the JavaScript `String(n)` conversion for a non-negative
integer: its decimal digits, most significant first. -/
def jsNatRepr (n : Nat) : String :=
  ⟨(natDigitsCore (n + 1) n).reverse⟩

/-- Model of `String(x)` where `x` is a number-or-null JavaScript value
(`String(null)` is the text null). -/
def jsNumOptRepr (v : Option Int) : String :=
  match v with
  | none => "null"
  | some n => if n < 0 then "-" ++ jsNatRepr n.natAbs else jsNatRepr n.natAbs

/-- Model of `String.prototype.trim`: drop leading and trailing whitespace. -/
def jsTrim (s : String) : String :=
  ⟨((s.data.dropWhile isJsSpace).reverse.dropWhile isJsSpace).reverse⟩

/-- Substring test: does `pat` occur contiguously inside `l`? -/
def hasSubstr (l pat : List Char) : Bool :=
  match l with
  | [] => pat.isEmpty
  | _ :: t => pat.isPrefixOf l || hasSubstr t pat

/-- Substring test on strings (how a reader would check that a produced
message mentions a phrase). -/
def strContains (s pat : String) : Bool :=
  hasSubstr s.data pat.data

/-! ## Bounded tail buffer (src/jobs/job_manager.ts, appendTail) -/

/-- `Buffer.byteLength(l, 'utf8')` for a list of characters. -/
def listUtf8Len (l : List Char) : Nat :=
  (l.map Char.utf8Size).sum

/-- `Buffer.byteLength(s, 'utf8')` for a string. -/
def utf8Len (s : String) : Nat :=
  listUtf8Len s.data

/-- The front-truncation loop of appendTail: starting from a candidate cut
point, advance by a tenth of the remaining length until the remaining suffix
fits in `maxBytes` or the string is exhausted. -/
def appendTailLoop (combined : List Char) (maxBytes : Nat) (start : Nat) : List Char :=
  if listUtf8Len (combined.drop start) > maxBytes ∧ start < combined.length then
    appendTailLoop combined maxBytes (start + (combined.length - start + 9) / 10)
  else
    combined.drop start
termination_by combined.length - start
decreasing_by
  have h1 : start < combined.length := by omega
  have h2 : 1 ≤ (combined.length - start + 9) / 10 := by omega
  omega

/-- `MAX_OUTPUT_BUFFER_BYTES`: keep the last roughly 2 MiB per stream. -/
def MAX_OUTPUT_BUFFER_BYTES : Nat := 2 * 1024 * 1024

/-- appendTail from src/jobs/job_manager.ts: append a chunk to the current
buffer, then truncate from the front while the UTF-8 byte length exceeds the
cap. -/
def appendTail (current chunk : String) (maxBytes : Nat) : String :=
  if chunk.length = 0 then current
  else
    let combined := current ++ chunk
    if utf8Len combined ≤ maxBytes then combined
    else ⟨appendTailLoop combined.data maxBytes (combined.length - maxBytes)⟩

/-! ## Data model (src/jobs/job_manager.ts) -/

/-- JobStatus. -/
inductive JobStatus where
  | running
  | done
  | failed
  | canceled
deriving DecidableEq, BEq

/-- The text of a JobStatus as it appears in serialized events. -/
def jobStatusStr (st : JobStatus) : String :=
  match st with
  | .running => "running"
  | .done => "done"
  | .failed => "failed"
  | .canceled => "canceled"

/-- NormalizedEventType. -/
inductive NormalizedEventType where
  | message
  | progress
  | tool_call
  | tool_result
  | error
  | final
deriving DecidableEq, BEq

/-- NormalizedEvent: a classified event with opaque content and an ingest
timestamp. -/
structure NormalizedEvent where
  type : NormalizedEventType
  content : JsonV
  timestamp : String

/-- SandboxModeValue (src/types.ts, the SandboxMode enum). -/
inductive SandboxModeV where
  | read_only
  | workspace_write
  | danger_full_access
deriving DecidableEq, BEq

/-- The wire name of a sandbox mode. -/
def sandboxStr (s : SandboxModeV) : String :=
  match s with
  | .read_only => "read-only"
  | .workspace_write => "workspace-write"
  | .danger_full_access => "danger-full-access"

/-- SandboxMode.safeParse: recognize exactly the three sandbox names. -/
def parseSandbox (s : String) : Option SandboxModeV :=
  if s = "read-only" then some .read_only
  else if s = "workspace-write" then some .workspace_write
  else if s = "danger-full-access" then some .danger_full_access
  else none

/-- Reasoning effort values. -/
inductive ReasoningEffort where
  | low
  | medium
  | high
deriving DecidableEq, BEq

/-- The wire name of a reasoning effort. -/
def effortStr (r : ReasoningEffort) : String :=
  match r with
  | .low => "low"
  | .medium => "medium"
  | .high => "high"

/-- CodexSpawnJobArgs: raw caller options for spawn-from-request. -/
structure CodexSpawnJobArgs where
  prompt : String
  model : Option String := none
  reasoningEffort : Option ReasoningEffort := none
  sandbox : Option SandboxModeV := none
  fullAuto : Option Bool := none
  workingDirectory : Option String := none
  label : Option String := none

/-- CodexJobEffectiveOptions: the options actually applied to a child. -/
structure CodexJobEffectiveOptions where
  model : Option String := none
  reasoningEffort : Option ReasoningEffort := none
  sandbox : Option SandboxModeV := none
  useFullAuto : Bool
  workingDirectory : Option String := none

/-- CodexJobSpawnMetadata. -/
structure CodexJobSpawnMetadata where
  requested : CodexSpawnJobArgs
  effective : CodexJobEffectiveOptions
  label : Option String := none

/-- CodexJobStatus: the payload returned by getStatus.  An exit code is a
double Option: the outer layer models an assigned-vs-undefined field, the
inner layer models the JavaScript null produced by a signal-killed child. -/
structure CodexJobStatusRes where
  jobId : String
  status : JobStatus
  startedAt : String
  finishedAt : Option String := none
  exitCode : Option (Option Int) := none

/-- CodexJobResult: getStatus payload plus final message and stream tails. -/
structure CodexJobResultRes where
  jobId : String
  status : JobStatus
  startedAt : String
  finishedAt : Option String := none
  exitCode : Option (Option Int) := none
  finalMessage : Option String := none
  stdoutTail : Option String := none
  stderrTail : Option String := none

/-- JobRecord: the internal registry record.  The child-process handle and
the completion promise are runtime handles with no data content and are left
outside the model; the exitSignal carries the signal name string. -/
structure JobRecord where
  jobId : String
  status : JobStatus
  startedAt : String
  finishedAt : Option String := none
  exitCode : Option (Option Int) := none
  exitSignal : Option (Option String) := none
  cancelRequested : Bool
  stdoutTail : String
  stderrTail : String
  events : List NormalizedEvent
  lastAgentMessage : Option String := none
  spawnMetadata : CodexJobSpawnMetadata
  turnCompleted : Bool
  stdoutRemainder : String

/-- The environment variables consulted by the job manager. -/
structure Env where
  defaultSandbox : Option String := none
  maxJobs : Option String := none

/-! ## Event normalizer (src/jobs/job_manager.ts, normalizeThreadEvent) -/

/-- The classification chain of normalizeThreadEvent, applied once the two
early guards have passed (`rawEvent` is an object with a string type field
`ty`); every branch, including the unknown-type fallbacks, yields an event. -/
def classifyThreadEvent (stamp : String) (rawEvent : JsonV) (ty : String) : NormalizedEvent :=
  if ty = "thread.started" then
    ⟨.progress, .obj [("threadId", getField rawEvent ("thread_id"))], stamp⟩
  else if ty = "turn.started" then
    ⟨.progress, .obj [("kind", .str ("turn.started"))], stamp⟩
  else if ty = "turn.completed" then
    ⟨.progress, .obj [("kind", .str ("turn.completed")),
                      ("usage", getField rawEvent ("usage"))], stamp⟩
  else if ty = "turn.failed" then
    ⟨.error, .obj [("kind", .str ("turn.failed")),
                   ("error", getField rawEvent ("error"))], stamp⟩
  else if ty = "error" then
    ⟨.error, rawEvent, stamp⟩
  else if ty = "item.started" ∨ ty = "item.updated" ∨ ty = "item.completed" then
    let item := getField rawEvent ("item")
    match getField item ("type") with
    | .str itemType =>
      let itemId := getField item ("id")
      let base : List (String × JsonV) :=
        [("kind", .str ty), ("itemType", .str itemType), ("itemId", itemId)]
      if itemType = "agent_message" then
        ⟨.message, .obj (base ++ [("text", getField item ("text"))]), stamp⟩
      else if itemType = "reasoning" then
        ⟨.progress, .obj (base ++ [("text", getField item ("text"))]), stamp⟩
      else if itemType = "command_execution" then
        ⟨if ty = "item.completed" then .tool_result else .tool_call,
         .obj (base ++ [("command", getField item ("command")),
                        ("status", getField item ("status")),
                        ("exitCode", getField item ("exit_code"))]), stamp⟩
      else if itemType = "file_change" then
        ⟨if ty = "item.completed" then .tool_result else .tool_call,
         .obj (base ++ [("changes", getField item ("changes")),
                        ("status", getField item ("status"))]), stamp⟩
      else if itemType = "mcp_tool_call" then
        ⟨if ty = "item.completed" then .tool_result else .tool_call,
         .obj (base ++ [("server", getField item ("server")),
                        ("tool", getField item ("tool")),
                        ("status", getField item ("status")),
                        ("arguments", getField item ("arguments")),
                        ("result", getField item ("result")),
                        ("error", getField item ("error"))]), stamp⟩
      else if itemType = "web_search" then
        ⟨if ty = "item.completed" then .tool_result else .tool_call,
         .obj (base ++ [("query", getField item ("query"))]), stamp⟩
      else if itemType = "todo_list" then
        ⟨.progress, .obj (base ++ [("items", getField item ("items"))]), stamp⟩
      else if itemType = "error" then
        ⟨.error, .obj (base ++ [("message", getField item ("message"))]), stamp⟩
      else
        ⟨.progress, .obj (base ++ [("item", item)]), stamp⟩
    | _ =>
      ⟨.progress, .obj [("kind", .str ty), ("item", item)], stamp⟩
  else
    ⟨.progress, rawEvent, stamp⟩

/-- normalizeThreadEvent: classify one decoded JSONL event into the fixed
taxonomy.  `stamp` stands for the nowIso() timestamp taken at ingest time.
Returns none exactly on the two early guards of the source (non-object input,
or a type field that is not a string); every later branch of the source
returns an event, which the wrapper records by applying `some` once. -/
def normalizeThreadEvent (stamp : String) (rawEvent : JsonV) : Option NormalizedEvent :=
  if ¬ isJsObjectLike rawEvent then none
  else
    match getField rawEvent ("type") with
    | .str ty => some (classifyThreadEvent stamp rawEvent ty)
    | _ => none

/-! ## Readers (src/jobs/job_manager.ts) -/

/-- getStatus. -/
def getStatus (job : JobRecord) : CodexJobStatusRes :=
  { jobId := job.jobId
    status := job.status
    startedAt := job.startedAt
    finishedAt := job.finishedAt
    exitCode := job.exitCode }

/-- getResult: getStatus plus final message and tails; an empty tail string
is falsy in JavaScript, so `tail || undefined` drops it. -/
def getResult (job : JobRecord) : CodexJobResultRes :=
  { jobId := job.jobId
    status := job.status
    startedAt := job.startedAt
    finishedAt := job.finishedAt
    exitCode := job.exitCode
    finalMessage := job.lastAgentMessage
    stdoutTail := if job.stdoutTail = "" then none else some job.stdoutTail
    stderrTail := if job.stderrTail = "" then none else some job.stderrTail }

/-- cancel: a no-op returning false on a non-running job, otherwise set the
cancellation flag (the signal to the child is an external side effect). -/
def cancel (job : JobRecord) (force : Bool) : JobRecord × Bool :=
  if job.status ≠ .running then (job, false)
  else ({ job with cancelRequested := true }, true)

/-- getEventTail: the last `maxEvents` entries of the optionally filtered
event vector, in original order. -/
def getEventTail (job : JobRecord) (maxEvents : Int)
    (allowedTypes : Option (List NormalizedEventType)) : List NormalizedEvent :=
  let limit := (max 0 maxEvents).toNat
  if limit = 0 then []
  else
    let filtered :=
      match allowedTypes with
      | some ts => job.events.filter (fun (e : NormalizedEvent) => ts.contains e.type)
      | none => job.events
    filtered.drop (filtered.length - limit)

/-- The result shape of getEvents. -/
structure GetEventsRes where
  events : List NormalizedEvent
  nextCursor : String
  done : Bool

/-- getEvents: cursor-paginated read of the event vector.  A missing or empty
cursor string is falsy and starts at 0; a NaN or negative parse clamps to 0;
at least one event is always requested. -/
def getEvents (job : JobRecord) (cursor : Option String) (maxEvents : Nat) : GetEventsRes :=
  let start : Option Int :=
    match cursor with
    | none => some 0
    | some c => if c = "" then some 0 else jsParseInt c
  let safeStart : Nat :=
    match start with
    | some k => if 0 ≤ k then k.toNat else 0
    | none => 0
  let endExclusive := min job.events.length (safeStart + max 1 maxEvents)
  { events := (job.events.take endExclusive).drop safeStart
    nextCursor := jsNatRepr endExclusive
    done := job.status != .running }

/-! ## Spawn machinery (src/jobs/job_manager.ts) -/

/-- parseMaxJobsFromEnv: the concurrency cap, re-read from the environment at
every spawn.  A missing or empty (falsy) variable, a NaN parse, or a
non-positive value all fall back to 32. -/
def parseMaxJobsFromEnv (env : Env) : Nat :=
  match env.maxJobs with
  | none => 32
  | some raw =>
    if raw = "" then 32
    else
      match jsParseInt raw with
      | none => 32
      | some parsed => if parsed ≤ 0 then 32 else parsed.toNat

/-- The number of registry records currently in running status. -/
def runningCount (jobs : List JobRecord) : Nat :=
  (jobs.filter (fun (j : JobRecord) => j.status == .running)).length

/-- JavaScript truthiness of an optional string (undefined and the empty
string are falsy). -/
def strTruthy (s : Option String) : Bool :=
  match s with
  | none => false
  | some v => v != ""

/-- JavaScript truthiness of an optional boolean. -/
def boolTruthy (b : Option Bool) : Bool :=
  match b with
  | none => false
  | some v => v

/-- The synthetic progress event appended right after a successful spawn. -/
def spawnedEvent (jobId startedAt : String) (cmdArgs : List String)
    (meta : CodexJobSpawnMetadata) : NormalizedEvent :=
  { type := .progress
    timestamp := startedAt
    content := .obj
      [("jobId", .str jobId),
       ("kind", .str ("spawned")),
       ("command", .str ("codex")),
       ("args", .arr (cmdArgs.map .str)),
       ("effectiveSandbox",
        match meta.effective.sandbox with
        | some s => .str (sandboxStr s)
        | none => .null),
       ("label",
        match meta.label with
        | some l => .str l
        | none => .null)]}

/-- The registry record created by a successful spawn, before any stream data
or termination has been observed. -/
def initialRecord (jobId startedAt : String) (cmdArgs : List String)
    (meta : CodexJobSpawnMetadata) : JobRecord :=
  { jobId := jobId
    status := .running
    startedAt := startedAt
    cancelRequested := false
    stdoutTail := ""
    stderrTail := ""
    events := [spawnedEvent jobId startedAt cmdArgs meta]
    spawnMetadata := meta
    turnCompleted := false
    stdoutRemainder := "" }

/-- spawnJob: the private admission gate and record creation.  The freshly
generated UUID and the captured start time are passed in as parameters; a
thrown error is modelled as the error side of Except, in which case no record
is added to the registry. -/
def spawnJob (env : Env) (jobs : List JobRecord) (jobId startedAt : String)
    (cmdArgs : List String) (meta : CodexJobSpawnMetadata) :
    Except String (List JobRecord × CodexJobStatusRes) :=
  let maxJobs := parseMaxJobsFromEnv env
  let running := runningCount jobs
  if maxJobs ≤ running then
    .error ("Too many concurrent jobs: " ++ jsNatRepr running ++ " running (max "
      ++ jsNatRepr maxJobs ++ "). Set CODEX_MCP_MAX_JOBS to override.")
  else
    .ok (jobs ++ [initialRecord jobId startedAt cmdArgs meta],
         { jobId := jobId, status := .running, startedAt := startedAt })

/-- The sandbox taken from the server environment: consulted only when the
variable is set (non-empty, truthy) and parses as a valid mode. -/
def sandboxFromEnv (env : Env) : Option SandboxModeV :=
  match env.defaultSandbox with
  | none => none
  | some s => if s = "" then none else parseSandbox s

/-- The argument-vector builder shared by both spawn entry points: flags are
appended in a fixed order, each one only when its option is truthy. -/
def buildCmdArgs (model : Option String) (reasoningEffort : Option ReasoningEffort)
    (sandbox : Option SandboxModeV) (useFullAuto : Bool)
    (workingDirectory : Option String) (prompt : String) : List String :=
  ["exec", "--json"]
  ++ (match model with
      | some m => if m = "" then [] else ["--model", m]
      | none => [])
  ++ (match reasoningEffort with
      | some r => ["-c", "model_reasoning_effort=\"" ++ effortStr r ++ "\""]
      | none => [])
  ++ (match sandbox with
      | some s => ["--sandbox", sandboxStr s]
      | none => [])
  ++ (if useFullAuto then ["--full-auto"] else [])
  ++ (match workingDirectory with
      | some d => if d = "" then [] else ["-C", d]
      | none => [])
  ++ ["--skip-git-repo-check", prompt]

/-- The pure prefix of spawnCodexJob (spawn-from-request): resolve the
effective sandbox with precedence caller, environment default, then
workspace-write unless fullAuto suppresses the final default; build the
argument vector and the spawn metadata. -/
def spawnCodexJobPlan (env : Env) (args : CodexSpawnJobArgs) :
    List String × CodexJobSpawnMetadata :=
  let effectiveSandbox :=
    match args.sandbox with
    | some s => some s
    | none =>
      match sandboxFromEnv env with
      | some s => some s
      | none => if boolTruthy args.fullAuto then none else some .workspace_write
  let effectiveUseFullAuto := boolTruthy args.fullAuto && effectiveSandbox.isNone
  let cmdArgs := buildCmdArgs args.model args.reasoningEffort effectiveSandbox
    effectiveUseFullAuto args.workingDirectory args.prompt
  (cmdArgs,
   { requested := args
     effective :=
       { model := args.model
         reasoningEffort := args.reasoningEffort
         sandbox := effectiveSandbox
         useFullAuto := effectiveUseFullAuto
         workingDirectory := args.workingDirectory }
     label := args.label })

/-- spawnCodexJob: spawn from raw caller options. -/
def spawnCodexJob (env : Env) (jobs : List JobRecord) (args : CodexSpawnJobArgs)
    (jobId startedAt : String) : Except String (List JobRecord × CodexJobStatusRes) :=
  let plan := spawnCodexJobPlan env args
  spawnJob env jobs jobId startedAt plan.1 plan.2

/-- The pure prefix of spawnCodexJobWithEffectiveOptions (spawn-from-effective,
used by interrupt/respawn): inherit the already-resolved options verbatim,
re-checking that an explicit sandbox suppresses the full-auto flag. -/
def spawnWithEffectivePlan (prompt : String) (effective : CodexJobEffectiveOptions)
    (label : Option String) : List String × CodexJobSpawnMetadata :=
  let sandbox := effective.sandbox
  let useFullAuto := effective.useFullAuto && sandbox.isNone
  let cmdArgs := buildCmdArgs effective.model effective.reasoningEffort sandbox
    useFullAuto effective.workingDirectory prompt
  (cmdArgs,
   { requested :=
       { prompt := prompt
         model := effective.model
         reasoningEffort := effective.reasoningEffort
         sandbox := sandbox
         fullAuto := some useFullAuto
         workingDirectory := effective.workingDirectory
         label := label }
     effective :=
       { model := effective.model
         reasoningEffort := effective.reasoningEffort
         sandbox := sandbox
         useFullAuto := useFullAuto
         workingDirectory := effective.workingDirectory }
     label := label })

/-- spawnCodexJobWithEffectiveOptions. -/
def spawnCodexJobWithEffectiveOptions (env : Env) (jobs : List JobRecord)
    (prompt : String) (effective : CodexJobEffectiveOptions) (label : Option String)
    (jobId startedAt : String) : Except String (List JobRecord × CodexJobStatusRes) :=
  let plan := spawnWithEffectivePlan prompt effective label
  spawnJob env jobs jobId startedAt plan.1 plan.2

/-! ## Termination handling (src/jobs/job_manager.ts, close and error handlers) -/

/-- The close handler: record the exit data, classify the terminal status
(cancellation is authoritative unless the turn completed; otherwise exit code
0 means done), append the final event and fire completion. -/
def onClose (r : JobRecord) (finishedAt : String) (code : Option Int)
    (signal : Option String) : JobRecord :=
  let status : JobStatus :=
    if r.cancelRequested ∧ ¬ r.turnCompleted then .canceled
    else if code = some 0 then .done
    else .failed
  { r with
    exitCode := some code
    exitSignal := some signal
    finishedAt := some finishedAt
    status := status
    events := r.events ++
      [{ type := .final
         timestamp := finishedAt
         content := .obj
           [("jobId", .str r.jobId),
            ("status", .str (jobStatusStr status)),
            ("exitCode", match code with | some n => .num n | none => .null),
            ("exitSignal", match signal with | some s => .str s | none => .null),
            ("lastMessage",
             match r.lastAgentMessage with
             | some m => .str m
             | none => .undefVal)]}]}

/-- The spawn-error handler: terminal status without exit data, and an error
event instead of a final one. -/
def onSpawnError (r : JobRecord) (stamp : String) (errMsg : String) : JobRecord :=
  { r with
    status := if r.cancelRequested then .canceled else .failed
    finishedAt := some stamp
    events := r.events ++
      [{ type := .error
         timestamp := stamp
         content := .obj [("message", .str errMsg)]}]}

/-! ## JSON serialization (JSON.stringify, used for prompt formatting) -/

/-- String escaping for JSON.stringify: the common escapes; rare control
characters below 0x20 are kept verbatim in this model. -/
def jsonEscapeChar (c : Char) : List Char :=
  if c = '"' then ['\\', '"']
  else if c = '\\' then ['\\', '\\']
  else if c = '\n' then ['\\', 'n']
  else if c = '\r' then ['\\', 'r']
  else if c = '\t' then ['\\', 't']
  else [c]

/-- A JSON string literal. -/
def jsonQuote (s : String) : String :=
  ⟨'"' :: (s.data.map jsonEscapeChar).flatten ++ ['"']⟩

mutual

/-- JSON.stringify for a defined value. -/
def jsonStringifyV : JsonV → String
  | .null => "null"
  | .undefVal => "undefined"
  | .bool b => if b then "true" else "false"
  | .num n => if n < 0 then "-" ++ jsNatRepr n.natAbs else jsNatRepr n.natAbs
  | .str s => jsonQuote s
  | .arr xs => "[" ++ String.intercalate (",") (jsonArrStrs xs) ++ "]"
  | .obj fs => "\x7b" ++ String.intercalate (",") (jsonFieldStrs fs) ++ "\x7d"

/-- Array elements: an undefined element serializes as null. -/
def jsonArrStrs : List JsonV → List String
  | [] => []
  | v :: rest =>
    (match v with
     | .undefVal => "null"
     | _ => jsonStringifyV v) :: jsonArrStrs rest

/-- Object members: a property holding undefined is dropped. -/
def jsonFieldStrs : List (String × JsonV) → List String
  | [] => []
  | (k, v) :: rest =>
    match v with
    | .undefVal => jsonFieldStrs rest
    | _ => (jsonQuote k ++ ":" ++ jsonStringifyV v) :: jsonFieldStrs rest

end

/-! ## Tool handlers (src/tools/handlers.ts) -/

/-- The text of a NormalizedEventType as printed into prompts. -/
def eventTypeStr (t : NormalizedEventType) : String :=
  match t with
  | .message => "message"
  | .progress => "progress"
  | .tool_call => "tool_call"
  | .tool_result => "tool_result"
  | .error => "error"
  | .final => "final"

/-- formatEventForPrompt: one line per event; message, error and progress
events with usable payloads get a dedicated rendering, everything else falls
back to serialized content. -/
def formatEventForPrompt (ev : NormalizedEvent) : String :=
  let ts := ev.timestamp
  let fallback := "[" ++ ts ++ "] " ++ eventTypeStr ev.type ++ ": " ++ jsonStringifyV ev.content
  if ev.type = .message then
    match getField ev.content ("text") with
    | .str text =>
      if (jsTrim text).length > 0 then "[" ++ ts ++ "] message: " ++ jsTrim text
      else fallback
    | _ => fallback
  else if ev.type = .error then
    let m0 := getField ev.content ("message")
    let m :=
      match m0 with
      | .undefVal => getField ev.content ("error")
      | .null => getField ev.content ("error")
      | _ => m0
    match m with
    | .str msg =>
      if (jsTrim msg).length > 0 then "[" ++ ts ++ "] error: " ++ jsTrim msg
      else fallback
    | _ => fallback
  else if ev.type = .progress then
    match getField ev.content ("kind") with
    | .str kind =>
      if (jsTrim kind).length > 0 then "[" ++ ts ++ "] progress: " ++ jsTrim kind
      else fallback
    | _ => fallback
  else fallback

/-- buildInterruptPrompt: prior-context header, formatted event tail, updated
instructions, and the fixed refresh-before-write reminder. -/
def buildInterruptPrompt (previousJobId : String) (eventsTail : List NormalizedEvent)
    (newPrompt : String) : String :=
  let header := "Prior Context (from interrupted job " ++ previousJobId ++ ")"
  let formattedEvents :=
    if eventsTail.length = 0 then "(no captured events)"
    else String.intercalate ("\n") (eventsTail.map formatEventForPrompt)
  header ++ "\n" ++ formattedEvents ++ "\n\n" ++ "Updated Instructions\n" ++ newPrompt
    ++ "\n\n" ++ "IMPORTANT: Refresh-before-write. Re-read relevant files/symbols immediately before editing."

/-- formatMissingFinalMessage: the canonical fallback text returned by the
result tool when a job has no final agent message, keyed by the job status,
with an exitCode line exactly when the exitCode field was assigned. -/
def formatMissingFinalMessage (result : CodexJobResultRes) : String :=
  let exit :=
    match result.exitCode with
    | none => ""
    | some v => "\nexitCode: " ++ jsNumOptRepr v
  match result.status with
  | .canceled =>
    "Summary:\n- Job was canceled before producing a final assistant message.\n- No modifiedFiles were reported.\n\nmodifiedFiles:\n\nstatus: canceled"
      ++ exit
      ++ "\n\nTip: If you want a non-empty message on cancellation, require delegated jobs to emit a short acknowledgement message before long-running tool calls."
  | .failed =>
    "Summary:\n- Job failed before producing a final assistant message.\n- No modifiedFiles were reported.\n\nmodifiedFiles:\n\nstatus: failed"
      ++ exit
      ++ "\n\nTip: Use codex_result(view=\"full\") for stderrTail, or poll codex_events for progress leading up to the failure."
  | .done =>
    "Summary:\n- Job completed but produced no final assistant message.\n- No modifiedFiles were reported.\n\nmodifiedFiles:\n\nstatus: done"
      ++ exit
  | .running => ""

/-- The finalMessage path of CodexResultToolHandler.execute: return the final
agent message when one with non-blank text exists, a structured fallback for
a terminated job, and the empty string otherwise. -/
def codexResultFinalMessageView (result : CodexJobResultRes) : String :=
  let missing :=
    if result.status ≠ .running then
      let fallback := formatMissingFinalMessage result
      if (jsTrim fallback).length > 0 then fallback else ""
    else ""
  match result.finalMessage with
  | some m => if (jsTrim m).length > 0 then m else missing
  | none => missing

/-- The override block accepted by the interrupt tool. -/
structure InterruptOverrides where
  model : Option String := none
  reasoningEffort : Option ReasoningEffort := none
  sandbox : Option SandboxModeV := none
  fullAuto : Option Bool := none
  workingDirectory : Option String := none

/-- The overlay of interrupt overrides onto the captured effective options,
re-applying the rule that an explicit sandbox suppresses full-auto. -/
def interruptEffective (effectiveBase : CodexJobEffectiveOptions)
    (overrides : InterruptOverrides) : CodexJobEffectiveOptions :=
  let sandbox :=
    match overrides.sandbox with
    | some s => some s
    | none => effectiveBase.sandbox
  { model :=
      match overrides.model with
      | some m => some m
      | none => effectiveBase.model
    reasoningEffort :=
      match overrides.reasoningEffort with
      | some r => some r
      | none => effectiveBase.reasoningEffort
    sandbox := sandbox
    useFullAuto := (overrides.fullAuto.getD effectiveBase.useFullAuto) && sandbox.isNone
    workingDirectory :=
      match overrides.workingDirectory with
      | some d => some d
      | none => effectiveBase.workingDirectory }

/-- The observable outcome of the interrupt handler after its wait phase. -/
inductive InterruptOutcome where
  | refused (previousStatus : JobStatus) (reason : String)
  | respawned (previousStatus : JobStatus) (newJobId : String)
  | errored (msg : String)

/-- The post-wait phase of CodexInterruptToolHandler.execute: re-read status;
refuse to respawn when the job completed naturally (done or failed), and
otherwise overlay the overrides on the captured effective options and respawn
through spawnCodexJobWithEffectiveOptions.  A spawn failure (the admission
gate) propagates as an error and leaves the registry unchanged. -/
def interruptAfterWait (env : Env) (jobs : List JobRecord) (previousJobId : String)
    (statusAfter : JobStatus) (spawnMeta : CodexJobSpawnMetadata)
    (overrides : InterruptOverrides) (tail : List NormalizedEvent) (newPrompt : String)
    (newJobId newStartedAt : String) : List JobRecord × InterruptOutcome :=
  if statusAfter = .done ∨ statusAfter = .failed then
    (jobs, .refused statusAfter
      ("Refusing to respawn: job completed naturally while waiting for cancellation"))
  else
    let respawnPrompt := buildInterruptPrompt previousJobId tail newPrompt
    match spawnCodexJobWithEffectiveOptions env jobs respawnPrompt
        (interruptEffective spawnMeta.effective overrides)
        spawnMeta.label newJobId newStartedAt with
    | .ok (jobs2, st) => (jobs2, .respawned statusAfter st.jobId)
    | .error e => (jobs, .errored e)

/-! ## Helper lemmas: substrings -/

/-- hasSubstr decides contiguous containment. -/
theorem hasSubstr_iff_occurs (l pat : List Char) : hasSubstr l pat = true ↔ pat <:+: l := by
  induction l with
  | nil => simp [hasSubstr, List.isEmpty_iff, List.infix_nil]
  | cons a t ih =>
    rw [hasSubstr, Bool.or_eq_true, List.isPrefixOf_iff_prefix, ih, List.infix_cons_iff]

/-- strContains decides contiguous containment of character data. -/
theorem strContains_iff_occurs (s pat : String) :
    strContains s pat = true ↔ pat.data <:+: s.data :=
  hasSubstr_iff_occurs s.data pat.data

/-! ## Helper lemmas: decimal digits and parse/print roundtrip -/

/-- Every digit character is a decimal digit. -/
theorem digitChar_isDigit (d : Nat) : (digitChar d).isDigit = true := by
  unfold digitChar
  repeat' split
  all_goals decide

/-- No digit character is whitespace. -/
theorem digitChar_not_space (d : Nat) : isJsSpace (digitChar d) = false := by
  unfold digitChar
  repeat' split
  all_goals decide

/-- No digit character is a minus sign. -/
theorem digitChar_ne_minus (d : Nat) : digitChar d ≠ '-' := by
  unfold digitChar
  repeat' split
  all_goals decide

/-- No digit character is a plus sign. -/
theorem digitChar_ne_plus (d : Nat) : digitChar d ≠ '+' := by
  unfold digitChar
  repeat' split
  all_goals decide

/-- The code point of a digit character, shifted back. -/
theorem digitChar_toNat (d : Nat) (h : d < 10) : (digitChar d).toNat - 48 = d := by
  interval_cases d <;> decide

/-- Supplied with enough fuel, the digit run is never empty. -/
theorem natDigitsCore_ne_nil (fuel n : Nat) (h : n < fuel) : natDigitsCore fuel n ≠ [] := by
  cases fuel with
  | zero => omega
  | succ f =>
    rw [natDigitsCore]
    split <;> simp

/-- Every character produced by the digit-run builder is a digit character. -/
theorem natDigitsCore_chars (fuel : Nat) : ∀ n, n < fuel →
    ∀ c ∈ natDigitsCore fuel n, ∃ d, d < 10 ∧ c = digitChar d := by
  induction fuel with
  | zero => omega
  | succ f ih =>
    intro n hn c hc
    rw [natDigitsCore] at hc
    split at hc
    · next h10 =>
      simp at hc
      exact ⟨n, h10, hc⟩
    · next h10 =>
      simp at hc
      rcases hc with hc | hc
      · exact ⟨n % 10, by omega, hc⟩
      · exact ih (n / 10) (by omega) c hc

/-- Folding the digit accumulator over the big-endian digit list recovers the
number. -/
theorem digitsVal_natDigitsCore (fuel : Nat) : ∀ n, n < fuel →
    digitsVal (natDigitsCore fuel n).reverse = n := by
  induction fuel with
  | zero => omega
  | succ f ih =>
    intro n hn
    rw [natDigitsCore]
    split
    · next h10 =>
      simp [digitsVal, digitChar_toNat n h10]
    · next h10 =>
      have hdiv : n / 10 < f := by
        have : n / 10 < n := Nat.div_lt_self (by omega) (by omega)
        omega
      have ihv := ih (n / 10) hdiv
      simp only [List.reverse_cons]
      unfold digitsVal at ihv ⊢
      rw [List.foldl_append, ihv]
      simp [digitChar_toNat (n % 10) (by omega)]
      omega

/-- The printed decimal form of a natural number is never empty. -/
theorem jsNatRepr_ne_empty (n : Nat) : jsNatRepr n ≠ "" := by
  intro h
  have h2 : (natDigitsCore (n + 1) n).reverse = [] := congrArg String.data h
  exact natDigitsCore_ne_nil (n + 1) n (by omega) (by simpa using h2)

/-- Parsing the printed decimal form of a natural number recovers it. -/
theorem jsParseInt_jsNatRepr (n : Nat) : jsParseInt (jsNatRepr n) = some (n : Int) := by
  have hchars := natDigitsCore_chars (n + 1) n (by omega)
  have hrevchars : ∀ c ∈ (natDigitsCore (n + 1) n).reverse, ∃ d, d < 10 ∧ c = digitChar d := by
    intro c hc
    exact hchars c (List.mem_reverse.mp hc)
  have hne : (natDigitsCore (n + 1) n).reverse ≠ [] := by
    simpa using natDigitsCore_ne_nil (n + 1) n (by omega)
  rw [jsParseInt]
  have hdata : (jsNatRepr n).data = (natDigitsCore (n + 1) n).reverse := rfl
  rw [hdata]
  obtain ⟨c, rest, hcr⟩ := List.exists_cons_of_ne_nil hne
  obtain ⟨d, hd10, hcd⟩ := hrevchars c (by rw [hcr]; exact List.mem_cons_self c rest)
  have hdrop : ((natDigitsCore (n + 1) n).reverse).dropWhile isJsSpace
      = (natDigitsCore (n + 1) n).reverse := by
    rw [hcr]
    simp [List.dropWhile_cons, hcd, digitChar_not_space d]
  rw [hdrop, hcr]
  have hcm : c ≠ '-' := by rw [hcd]; exact digitChar_ne_minus d
  have hcp : c ≠ '+' := by rw [hcd]; exact digitChar_ne_plus d
  have htake : (c :: rest).takeWhile Char.isDigit = c :: rest := by
    apply List.takeWhile_eq_self_iff.mpr
    intro a ha
    obtain ⟨d2, _, had⟩ := hrevchars a (by rw [hcr]; exact ha)
    rw [had]
    exact digitChar_isDigit d2
  have hval : digitsVal (c :: rest) = n := by
    rw [← hcr]
    exact digitsVal_natDigitsCore (n + 1) n (by omega)
  simp [hcm, hcp, parseDigits, htake, hval]

/-! ## Helper lemmas: trimming -/

/-- A member that fails the predicate survives dropWhile. -/
theorem mem_dropWhile_of_mem (p : Char → Bool) (l : List Char) (x : Char)
    (hx : x ∈ l) (hpx : p x = false) : x ∈ l.dropWhile p := by
  induction l with
  | nil => simp at hx
  | cons a t ih =>
    rw [List.dropWhile_cons]
    split
    · next hpa =>
      rcases List.mem_cons.mp hx with hxa | hxt
      · rw [hxa] at hpx; rw [hpx] at hpa; cases hpa
      · exact ih hxt
    · exact hx

/-- A string containing at least one non-whitespace character trims to a
non-empty string. -/
theorem jsTrim_ne_empty (s : String) (x : Char) (hx : x ∈ s.data)
    (hxs : isJsSpace x = false) : jsTrim s ≠ "" := by
  intro h
  have h2 : (((s.data.dropWhile isJsSpace).reverse.dropWhile isJsSpace).reverse : List Char)
      = [] := congrArg String.data h
  have hx1 : x ∈ s.data.dropWhile isJsSpace := mem_dropWhile_of_mem _ _ _ hx hxs
  have hx2 : x ∈ (s.data.dropWhile isJsSpace).reverse := List.mem_reverse.mpr hx1
  have hx3 : x ∈ (s.data.dropWhile isJsSpace).reverse.dropWhile isJsSpace :=
    mem_dropWhile_of_mem _ _ _ hx2 hxs
  rw [List.reverse_eq_nil_iff.mp h2] at hx3
  simp at hx3

/-- A string is non-empty exactly when its length is positive. -/
theorem length_pos_iff_ne_empty (s : String) : 0 < s.length ↔ s ≠ "" := by
  constructor
  · intro h heq
    rw [heq] at h
    simp at h
  · intro h
    have hd : s.data ≠ [] := by
      intro hdn
      exact h (String.ext_iff.mpr (by simpa using hdn))
    exact List.length_pos.mpr hd

/-! ## Helper lemmas: the tail-truncation loop -/

/-- The truncation loop returns a suffix (a drop) of its input whose UTF-8
byte length fits under the cap. -/
theorem appendTailLoop_spec (l : List Char) (M s : Nat) :
    (∃ k, appendTailLoop l M s = l.drop k) ∧ listUtf8Len (appendTailLoop l M s) ≤ M := by
  rw [appendTailLoop]
  split
  · next h =>
    exact appendTailLoop_spec l M (s + (l.length - s + 9) / 10)
  · next h =>
    refine ⟨⟨s, rfl⟩, ?_⟩
    rcases Decidable.not_and_iff_or_not.mp h with h1 | h1
    · omega
    · have hs : l.length ≤ s := by omega
      rw [List.drop_eq_nil_of_le hs]
      simp [listUtf8Len]
termination_by l.length - s
decreasing_by
  have h2 : 1 ≤ (l.length - s + 9) / 10 := by omega
  omega

/-! ## Concrete fixtures used by witnesses and counterexamples -/

/-- A minimal spawn-args value. -/
def argsEx : CodexSpawnJobArgs := { prompt := "p" }

/-- A minimal effective-options value. -/
def effEx : CodexJobEffectiveOptions := { useFullAuto := false }

/-- A minimal spawn-metadata value. -/
def metaEx : CodexJobSpawnMetadata := { requested := argsEx, effective := effEx }

/-- A minimal normalized event. -/
def evEx : NormalizedEvent := { type := .progress, content := .null, timestamp := "t0" }

/-- A running job record holding a single event. -/
def recRunning : JobRecord :=
  { jobId := "job-1"
    status := .running
    startedAt := "t0"
    cancelRequested := false
    stdoutTail := ""
    stderrTail := ""
    events := [evEx]
    spawnMetadata := metaEx
    turnCompleted := false
    stdoutRemainder := "" }

/-- An environment with the concurrency cap forced to one. -/
def envCap1 : Env := { maxJobs := some ("1") }

/-- An environment with neither variable set. -/
def envNone : Env := {}

/-- An interrupt call with no overrides. -/
def ovEx : InterruptOverrides := {}

/-- A buffer one byte over the tail cap. -/
def bigA : String := ⟨List.replicate (MAX_OUTPUT_BUFFER_BYTES + 1) 'a'⟩

/-- The byte length of the oversized buffer. -/
theorem utf8Len_bigA : utf8Len bigA = MAX_OUTPUT_BUFFER_BYTES + 1 := by
  show listUtf8Len (List.replicate (MAX_OUTPUT_BUFFER_BYTES + 1) 'a') = _
  rw [listUtf8Len, List.map_replicate, List.sum_replicate, smul_eq_mul]
  have h1 : ('a').utf8Size = 1 := by decide
  rw [h1, Nat.mul_one]

/-! ## Claim theorems -/

/-- Claim C1: when the child terminates, a requested cancellation with no
completed turn yields terminal status canceled regardless of the exit code;
without a cancellation request the status is done exactly on exit code 0 and
failed otherwise. -/
theorem onClose_terminal_status (r : JobRecord) (stamp : String) (code : Option Int)
    (signal : Option String) :
    (r.cancelRequested = true → r.turnCompleted = false →
      (onClose r stamp code signal).status = .canceled) ∧
    (r.cancelRequested = false →
      (onClose r stamp code signal).status =
        (if code = some 0 then JobStatus.done else JobStatus.failed)) := by
  constructor
  · intro hc ht
    simp [onClose, hc, ht]
  · intro hc
    simp [onClose, hc]

/-- Claim C1 witness: a canceled job that exited 0 without completing its
turn is classified canceled; an uncanceled job exiting 3 is failed. -/
theorem onClose_terminal_status_witness :
    (onClose { recRunning with cancelRequested := true } ("t1") (some 0) none).status
        = .canceled ∧
    (onClose recRunning ("t1") (some 3) none).status = .failed := by
  constructor
  · exact (onClose_terminal_status { recRunning with cancelRequested := true }
      ("t1") (some 0) none).1 rfl rfl
  · have h := (onClose_terminal_status recRunning ("t1") (some 3) none).2 rfl
    simpa using h

/-- Claim C9: a spawn error before any exit records finishedAt and a terminal
status (canceled when cancellation had been requested, failed otherwise),
leaves exitCode and exitSignal untouched (hence unset), and appends an error
event rather than a final event, so getStatus reports a terminal job with no
exit code and the event vector ends in an error event. -/
theorem onSpawnError_spec (r : JobRecord) (stamp errMsg : String) :
    (onSpawnError r stamp errMsg).finishedAt = some stamp ∧
    (onSpawnError r stamp errMsg).status
        = (if r.cancelRequested then JobStatus.canceled else JobStatus.failed) ∧
    (onSpawnError r stamp errMsg).status ≠ .running ∧
    (onSpawnError r stamp errMsg).exitCode = r.exitCode ∧
    (onSpawnError r stamp errMsg).exitSignal = r.exitSignal ∧
    (r.exitCode = none → (getStatus (onSpawnError r stamp errMsg)).exitCode = none) ∧
    (getStatus (onSpawnError r stamp errMsg)).status ≠ .running ∧
    (onSpawnError r stamp errMsg).events = r.events ++
      [{ type := .error, timestamp := stamp, content := .obj [("message", .str errMsg)]}] ∧
    (onSpawnError r stamp errMsg).events.getLast?.map NormalizedEvent.type
        = some NormalizedEventType.error := by
  refine ⟨rfl, rfl, ?_, rfl, rfl, ?_, ?_, rfl, ?_⟩
  · simp only [onSpawnError]
    split <;> simp
  · intro h
    simp [getStatus, onSpawnError, h]
  · simp only [getStatus, onSpawnError]
    split <;> simp
  · simp only [onSpawnError]
    rw [List.getLast?_concat]
    rfl

/-- Claim C9 witness: evaluated on the running fixture record. -/
theorem onSpawnError_spec_witness :
    (getStatus (onSpawnError recRunning ("t1") ("spawn codex ENOENT"))).exitCode = none :=
  (onSpawnError_spec recRunning ("t1") ("spawn codex ENOENT")).2.2.2.2.2.1 rfl

/-- Claim C10: getResult omits a stream tail (undefined rather than empty
string) exactly when the captured tail is empty, and returns the exact
captured string when it is non-empty. -/
theorem getResult_tail_fields (job : JobRecord) :
    ((getResult job).stdoutTail = none ↔ job.stdoutTail = "") ∧
    (job.stdoutTail ≠ "" → (getResult job).stdoutTail = some job.stdoutTail) ∧
    ((getResult job).stderrTail = none ↔ job.stderrTail = "") ∧
    (job.stderrTail ≠ "" → (getResult job).stderrTail = some job.stderrTail) := by
  by_cases h1 : job.stdoutTail = "" <;> by_cases h2 : job.stderrTail = "" <;>
    simp [getResult, h1, h2]

/-- Claim C10 witness: a non-empty stdout tail is returned verbatim and an
empty stderr tail is omitted. -/
theorem getResult_tail_fields_witness :
    (getResult { recRunning with stdoutTail := "out" }).stdoutTail = some ("out") :=
  (getResult_tail_fields { recRunning with stdoutTail := "out" }).2.1 (by decide)

/-- Claim C7 (amended): for a non-empty chunk, appendTail returns the intact
concatenation when it fits in the cap and otherwise a suffix of it whose
UTF-8 byte length is at most the cap.  (With an empty chunk the source
returns the buffer untouched, which is the counterexample below.) -/
theorem appendTail_cap (B C : String) (M : Nat) (hC : C ≠ "") :
    (utf8Len (B ++ C) ≤ M → appendTail B C M = B ++ C) ∧
    (M < utf8Len (B ++ C) →
      (appendTail B C M).data <:+ (B ++ C).data ∧ utf8Len (appendTail B C M) ≤ M) := by
  have hlenpos : 0 < C.length := (length_pos_iff_ne_empty C).mpr hC
  have hlen : ¬ C.length = 0 := by omega
  constructor
  · intro hle
    simp [appendTail, hlen, hle]
  · intro hgt
    have hne : ¬ utf8Len (B ++ C) ≤ M := by omega
    have hres : appendTail B C M
        = ⟨appendTailLoop (B ++ C).data M ((B ++ C).length - M)⟩ := by
      simp [appendTail, hlen, hne]
    rw [hres]
    obtain ⟨⟨k, hk⟩, hle2⟩ := appendTailLoop_spec (B ++ C).data M ((B ++ C).length - M)
    constructor
    · show appendTailLoop (B ++ C).data M ((B ++ C).length - M) <:+ (B ++ C).data
      rw [hk]
      exact List.drop_suffix k (B ++ C).data
    · exact hle2

/-- Claim C7 witness: a small in-cap append returns the concatenation. -/
theorem appendTail_cap_witness :
    ("b" : String) ≠ "" ∧ appendTail ("a") ("b") 10 = ("a") ++ ("b") := by
  refine ⟨by decide, ?_⟩
  exact (appendTail_cap ("a") ("b") 10 (by decide)).1 (by decide)

/-- Claim C7 counterexample: with an empty chunk the early return skips the
cap check, so a buffer already over the cap is returned unchanged and the
stated byte bound fails even though the byte length of buffer plus chunk
exceeds the cap. -/
theorem appendTail_cap_cx :
    appendTail bigA ("") MAX_OUTPUT_BUFFER_BYTES = bigA ∧
    MAX_OUTPUT_BUFFER_BYTES < utf8Len (bigA ++ ("")) ∧
    MAX_OUTPUT_BUFFER_BYTES < utf8Len (appendTail bigA ("") MAX_OUTPUT_BUFFER_BYTES) := by
  have hempty : appendTail bigA ("") MAX_OUTPUT_BUFFER_BYTES = bigA := by
    unfold appendTail
    rw [if_pos (show ("" : String).length = 0 from rfl)]
  have happ : bigA ++ ("") = bigA := by
    rw [String.ext_iff, String.data_append]
    simp
  refine ⟨hempty, ?_, ?_⟩
  · rw [happ, utf8Len_bigA]
    omega
  · rw [hempty, utf8Len_bigA]
    omega

/-- A substring of the left part survives appending on the right. -/
theorem strContains_append_left (a b pat : String) (h : strContains a pat = true) :
    strContains (a ++ b) pat = true := by
  rw [strContains_iff_occurs] at h ⊢
  rw [String.data_append]
  exact h.trans (List.prefix_append a.data b.data).isInfix

/-- A substring of the right part survives appending on the left. -/
theorem strContains_append_right (a b pat : String) (h : strContains b pat = true) :
    strContains (a ++ b) pat = true := by
  rw [strContains_iff_occurs] at h ⊢
  rw [String.data_append]
  exact h.trans (List.suffix_append a.data b.data).isInfix

/-- A string with a member character is non-empty. -/
theorem str_ne_empty_of_mem (s : String) (x : Char) (hx : x ∈ s.data) : s ≠ "" := by
  intro h
  rw [h] at hx
  simp at hx

/-- Membership in the data of an append, from the left part. -/
theorem mem_data_append_left (a b : String) (x : Char) (hx : x ∈ a.data) :
    x ∈ (a ++ b).data := by
  rw [String.data_append]
  exact List.mem_append_left _ hx

/-- Claim C4: spawn-from-request resolves the sandbox with precedence
caller-supplied, then valid environment default, then workspace-write; except
that a truthy fullAuto with neither of the first two leaves the sandbox unset
and turns useFullAuto on; and a set effective sandbox always forces
useFullAuto off. -/
theorem spawnCodexJobPlan_sandbox (env : Env) (args : CodexSpawnJobArgs) :
    (∀ s, args.sandbox = some s →
      (spawnCodexJobPlan env args).2.effective.sandbox = some s ∧
      (spawnCodexJobPlan env args).2.effective.useFullAuto = false) ∧
    (args.sandbox = none → ∀ s, sandboxFromEnv env = some s →
      (spawnCodexJobPlan env args).2.effective.sandbox = some s ∧
      (spawnCodexJobPlan env args).2.effective.useFullAuto = false) ∧
    (args.sandbox = none → sandboxFromEnv env = none → boolTruthy args.fullAuto = false →
      (spawnCodexJobPlan env args).2.effective.sandbox = some .workspace_write ∧
      (spawnCodexJobPlan env args).2.effective.useFullAuto = false) ∧
    (args.sandbox = none → sandboxFromEnv env = none → boolTruthy args.fullAuto = true →
      (spawnCodexJobPlan env args).2.effective.sandbox = none ∧
      (spawnCodexJobPlan env args).2.effective.useFullAuto = true) ∧
    (∀ s, (spawnCodexJobPlan env args).2.effective.sandbox = some s →
      (spawnCodexJobPlan env args).2.effective.useFullAuto = false) := by
  refine ⟨?_, ?_, ?_, ?_, ?_⟩
  · intro s hs
    simp [spawnCodexJobPlan, hs]
  · intro hs s he
    simp [spawnCodexJobPlan, hs, he]
  · intro hs he hf
    simp [spawnCodexJobPlan, hs, he, hf]
  · intro hs he hf
    simp [spawnCodexJobPlan, hs, he, hf]
  · intro s hs
    rcases h1 : args.sandbox with _ | s0
    · rcases h2 : sandboxFromEnv env with _ | s1
      · by_cases hf : boolTruthy args.fullAuto
        · simp [spawnCodexJobPlan, h1, h2, hf] at hs
        · simp [spawnCodexJobPlan, h1, h2, hf]
      · simp [spawnCodexJobPlan, h1, h2]
    · simp [spawnCodexJobPlan, h1]

/-- Claim C4 witness: with no caller sandbox, no environment default, and
fullAuto requested, the sandbox stays unset and useFullAuto is on. -/
theorem spawnCodexJobPlan_sandbox_witness :
    (spawnCodexJobPlan envNone { prompt := "p", fullAuto := some true }).2.effective.sandbox
        = none ∧
    (spawnCodexJobPlan envNone { prompt := "p", fullAuto := some true }).2.effective.useFullAuto
        = true :=
  (spawnCodexJobPlan_sandbox envNone { prompt := "p", fullAuto := some true }).2.2.2.1
    rfl rfl rfl

/-- Claim C5: a spawn succeeds exactly when the running count is strictly
below the cap (appending one record), fails with a message mentioning too
many concurrent jobs otherwise (adding no record), and the cap is the parsed
environment value when positive and 32 in every other case. -/
theorem spawnJob_admission (env : Env) (jobs : List JobRecord) (jobId startedAt : String)
    (cmdArgs : List String) (meta : CodexJobSpawnMetadata) :
    (runningCount jobs < parseMaxJobsFromEnv env →
      spawnJob env jobs jobId startedAt cmdArgs meta
        = .ok (jobs ++ [initialRecord jobId startedAt cmdArgs meta],
               { jobId := jobId, status := .running, startedAt := startedAt })) ∧
    (parseMaxJobsFromEnv env ≤ runningCount jobs →
      ∃ msg, spawnJob env jobs jobId startedAt cmdArgs meta = .error msg ∧
        strContains msg ("Too many concurrent jobs") = true) ∧
    (env.maxJobs = none → parseMaxJobsFromEnv env = 32) ∧
    (∀ raw k, env.maxJobs = some raw → jsParseInt raw = some k → 0 < k →
      parseMaxJobsFromEnv env = k.toNat) ∧
    (∀ raw, env.maxJobs = some raw → jsParseInt raw = none →
      parseMaxJobsFromEnv env = 32) ∧
    (∀ raw k, env.maxJobs = some raw → jsParseInt raw = some k → k ≤ 0 →
      parseMaxJobsFromEnv env = 32) := by
  refine ⟨?_, ?_, ?_, ?_, ?_, ?_⟩
  · intro h
    have hn : ¬ (parseMaxJobsFromEnv env ≤ runningCount jobs) := by omega
    simp [spawnJob, hn]
  · intro h
    refine ⟨"Too many concurrent jobs: " ++ jsNatRepr (runningCount jobs)
      ++ " running (max " ++ jsNatRepr (parseMaxJobsFromEnv env)
      ++ "). Set CODEX_MCP_MAX_JOBS to override.", by simp [spawnJob, h], ?_⟩
    have h1 : strContains ("Too many concurrent jobs: ") ("Too many concurrent jobs")
        = true := by decide
    exact strContains_append_left _ _ _ (strContains_append_left _ _ _
      (strContains_append_left _ _ _ (strContains_append_left _ _ _ h1)))
  · intro h
    simp [parseMaxJobsFromEnv, h]
  · intro raw k h1 h2 h3
    by_cases hr : raw = ""
    · rw [hr] at h2
      simp [jsParseInt] at h2
    · have hk : ¬ (k ≤ 0) := by omega
      simp [parseMaxJobsFromEnv, h1, hr, h2, hk]
  · intro raw h1 h2
    by_cases hr : raw = ""
    · simp [parseMaxJobsFromEnv, h1, hr]
    · simp [parseMaxJobsFromEnv, h1, hr, h2]
  · intro raw k h1 h2 h3
    by_cases hr : raw = ""
    · rw [hr] at h2
      simp [jsParseInt] at h2
    · simp [parseMaxJobsFromEnv, h1, hr, h2, h3]

/-- Claim C5 witness: on an empty registry with no environment override the
cap is 32 and a spawn succeeds, appending exactly the fresh record. -/
theorem spawnJob_admission_witness :
    runningCount [] < parseMaxJobsFromEnv envNone ∧
    spawnJob envNone [] ("j1") ("t0") [] metaEx
      = .ok ([initialRecord ("j1") ("t0") [] metaEx],
             { jobId := "j1", status := .running, startedAt := "t0" }) := by
  refine ⟨by decide, ?_⟩
  have h := (spawnJob_admission envNone [] ("j1") ("t0") [] metaEx).1 (by decide)
  simpa using h

/-- When no final message exists and the job is not running, the finalMessage
view returns the fallback, provided the fallback has visible content. -/
theorem view_eq_fallback (r : CodexJobResultRes) (hmsg : r.finalMessage = none)
    (hrun : r.status ≠ .running) (x : Char) (hx : x ∈ (formatMissingFinalMessage r).data)
    (hxs : isJsSpace x = false) :
    codexResultFinalMessageView r = formatMissingFinalMessage r := by
  have hne := jsTrim_ne_empty _ x hx hxs
  have hl : 0 < (jsTrim (formatMissingFinalMessage r)).length :=
    (length_pos_iff_ne_empty _).mpr hne
  simp [codexResultFinalMessageView, hmsg, hrun, hl]

/-- Claim C3: for a terminated job that never recorded an agent message, the
finalMessage view of the result tool returns the non-empty multi-line
fallback determined solely by the terminal status and exit code, with an
exitCode line exactly when the exit code field was assigned; for a running
job with no message it returns the empty string. -/
theorem codexResult_missing_fallback (job : JobRecord) (hmsg : job.lastAgentMessage = none) :
    (job.status ≠ .running →
      codexResultFinalMessageView (getResult job) = formatMissingFinalMessage (getResult job) ∧
      formatMissingFinalMessage (getResult job) ≠ "" ∧
      strContains (formatMissingFinalMessage (getResult job)) ("\n") = true ∧
      (strContains (formatMissingFinalMessage (getResult job)) ("exitCode:") = true
        ↔ job.exitCode ≠ none) ∧
      (∀ job2 : JobRecord, job2.status = job.status → job2.exitCode = job.exitCode →
        formatMissingFinalMessage (getResult job2)
          = formatMissingFinalMessage (getResult job))) ∧
    (job.status = .running → codexResultFinalMessageView (getResult job) = "") := by
  constructor
  · intro hrun
    cases hst : job.status with
    | running => exact absurd hst hrun
    | canceled =>
      have hfmm : formatMissingFinalMessage (getResult job) =
          ("Summary:\n- Job was canceled before producing a final assistant message.\n- No modifiedFiles were reported.\n\nmodifiedFiles:\n\nstatus: canceled"
            ++ (match job.exitCode with
                | none => ""
                | some v => "\nexitCode: " ++ jsNumOptRepr v))
            ++ "\n\nTip: If you want a non-empty message on cancellation, require delegated jobs to emit a short acknowledgement message before long-running tool calls." := by
        simp [formatMissingFinalMessage, getResult, hst]
      have hS : 'S' ∈ (formatMissingFinalMessage (getResult job)).data := by
        rw [hfmm]
        apply mem_data_append_left
        apply mem_data_append_left
        decide
      refine ⟨view_eq_fallback (getResult job) (by simp [getResult, hmsg])
          (by simp [getResult, hst]) 'S' hS (by decide),
        str_ne_empty_of_mem _ 'S' hS, ?_, ?_, ?_⟩
      · rw [hfmm]
        apply strContains_append_left
        apply strContains_append_left
        decide
      · cases hex : job.exitCode with
        | none =>
          rw [hfmm]
          simp only [hex]
          constructor
          · intro hcontr
            exact absurd hcontr (by decide)
          · intro hne
            exact absurd rfl hne
        | some v =>
          constructor
          · intro _
            simp
          · intro _
            rw [hfmm]
            simp only [hex]
            apply strContains_append_left
            apply strContains_append_right
            apply strContains_append_left
            decide
      · intro job2 h2s h2e
        simp [formatMissingFinalMessage, getResult, h2s, hst, h2e]
    | failed =>
      have hfmm : formatMissingFinalMessage (getResult job) =
          ("Summary:\n- Job failed before producing a final assistant message.\n- No modifiedFiles were reported.\n\nmodifiedFiles:\n\nstatus: failed"
            ++ (match job.exitCode with
                | none => ""
                | some v => "\nexitCode: " ++ jsNumOptRepr v))
            ++ "\n\nTip: Use codex_result(view=\"full\") for stderrTail, or poll codex_events for progress leading up to the failure." := by
        simp [formatMissingFinalMessage, getResult, hst]
      have hS : 'S' ∈ (formatMissingFinalMessage (getResult job)).data := by
        rw [hfmm]
        apply mem_data_append_left
        apply mem_data_append_left
        decide
      refine ⟨view_eq_fallback (getResult job) (by simp [getResult, hmsg])
          (by simp [getResult, hst]) 'S' hS (by decide),
        str_ne_empty_of_mem _ 'S' hS, ?_, ?_, ?_⟩
      · rw [hfmm]
        apply strContains_append_left
        apply strContains_append_left
        decide
      · cases hex : job.exitCode with
        | none =>
          rw [hfmm]
          simp only [hex]
          constructor
          · intro hcontr
            exact absurd hcontr (by decide)
          · intro hne
            exact absurd rfl hne
        | some v =>
          constructor
          · intro _
            simp
          · intro _
            rw [hfmm]
            simp only [hex]
            apply strContains_append_left
            apply strContains_append_right
            apply strContains_append_left
            decide
      · intro job2 h2s h2e
        simp [formatMissingFinalMessage, getResult, h2s, hst, h2e]
    | done =>
      have hfmm : formatMissingFinalMessage (getResult job) =
          "Summary:\n- Job completed but produced no final assistant message.\n- No modifiedFiles were reported.\n\nmodifiedFiles:\n\nstatus: done"
            ++ (match job.exitCode with
                | none => ""
                | some v => "\nexitCode: " ++ jsNumOptRepr v) := by
        simp [formatMissingFinalMessage, getResult, hst]
      have hS : 'S' ∈ (formatMissingFinalMessage (getResult job)).data := by
        rw [hfmm]
        apply mem_data_append_left
        decide
      refine ⟨view_eq_fallback (getResult job) (by simp [getResult, hmsg])
          (by simp [getResult, hst]) 'S' hS (by decide),
        str_ne_empty_of_mem _ 'S' hS, ?_, ?_, ?_⟩
      · rw [hfmm]
        apply strContains_append_left
        decide
      · cases hex : job.exitCode with
        | none =>
          rw [hfmm]
          simp only [hex]
          constructor
          · intro hcontr
            exact absurd hcontr (by decide)
          · intro hne
            exact absurd rfl hne
        | some v =>
          constructor
          · intro _
            simp
          · intro _
            rw [hfmm]
            simp only [hex]
            apply strContains_append_right
            apply strContains_append_left
            decide
      · intro job2 h2s h2e
        simp [formatMissingFinalMessage, getResult, h2s, hst, h2e]
  · intro hrun2
    simp [codexResultFinalMessageView, getResult, hmsg, hrun2]

/-- Claim C3 witness: a canceled fixture job with exit code zero gets the
canceled fallback template, which mentions an exitCode line. -/
theorem codexResult_missing_fallback_witness :
    codexResultFinalMessageView
        (getResult { recRunning with status := .canceled, exitCode := some (some 0) })
      = formatMissingFinalMessage
          (getResult { recRunning with status := .canceled, exitCode := some (some 0) }) ∧
    strContains
        (formatMissingFinalMessage
          (getResult { recRunning with status := .canceled, exitCode := some (some 0) }))
        ("exitCode:") = true := by
  have h := (codexResult_missing_fallback
    { recRunning with status := .canceled, exitCode := some (some 0) } rfl).1 (by decide)
  exact ⟨h.1, h.2.2.2.1.mpr (by decide)⟩

/-- Claim C8: the normalizer returns no event exactly when the input is not
an object (or array) or its type field is not a string; every other input,
including unknown types, yields exactly one event. -/
theorem normalizeThreadEvent_none_iff (stamp : String) (v : JsonV) :
    (normalizeThreadEvent stamp v).isSome = true ↔
      (isJsObjectLike v = true ∧ ∃ s, getField v ("type") = .str s) := by
  cases v with
  | null => simp [normalizeThreadEvent, isJsObjectLike]
  | undefVal => simp [normalizeThreadEvent, isJsObjectLike]
  | bool b => simp [normalizeThreadEvent, isJsObjectLike]
  | num n => simp [normalizeThreadEvent, isJsObjectLike]
  | str s => simp [normalizeThreadEvent, isJsObjectLike]
  | arr xs => simp [normalizeThreadEvent, isJsObjectLike, getField]
  | obj fs =>
    cases hty : getField (JsonV.obj fs) ("type") with
    | str t =>
      have hsome : (normalizeThreadEvent stamp (JsonV.obj fs)).isSome = true := by
        simp only [normalizeThreadEvent, hty]
        rw [if_neg (by simp [isJsObjectLike])]
        simp
      simp [hsome, hty, isJsObjectLike]
    | null => simp [normalizeThreadEvent, isJsObjectLike, hty]
    | undefVal => simp [normalizeThreadEvent, isJsObjectLike, hty]
    | bool b => simp [normalizeThreadEvent, isJsObjectLike, hty]
    | num n => simp [normalizeThreadEvent, isJsObjectLike, hty]
    | arr ys => simp [normalizeThreadEvent, isJsObjectLike, hty]
    | obj gs => simp [normalizeThreadEvent, isJsObjectLike, hty]

/-- Unfolding of getEvents for a present, non-empty cursor with a parsed
numeric value. -/
theorem getEvents_some_eq (job : JobRecord) (c : String) (n : Nat) (k : Int)
    (hc : ¬ c = "") (hk : jsParseInt c = some k) :
    getEvents job (some c) n =
      { events := (job.events.take (min job.events.length
          ((if 0 ≤ k then k.toNat else 0) + max 1 n))).drop (if 0 ≤ k then k.toNat else 0)
        nextCursor := jsNatRepr (min job.events.length
          ((if 0 ≤ k then k.toNat else 0) + max 1 n))
        done := job.status != .running } := by
  simp [getEvents, hc, hk]

/-- Unfolding of getEvents when the cursor parses to a natural number (as
the printed nextCursor of a previous call always does). -/
theorem getEvents_some_nat_eq (job : JobRecord) (c : String) (n : Nat) (m : Nat)
    (hc : ¬ c = "") (hk : jsParseInt c = some (m : Int)) :
    getEvents job (some c) n =
      { events := (job.events.take (min job.events.length (m + max 1 n))).drop m
        nextCursor := jsNatRepr (min job.events.length (m + max 1 n))
        done := job.status != .running } := by
  simp [getEvents, hc, hk]

/-- Claim C2 (amended): the returned nextCursor parses back to the computed
end index, which is at least the minimum of the parsed cursor and the event
count (the original claim fails when the cursor exceeds the event count); and
a follow-up read at the returned nextCursor, after any append-only extension
of the event vector, covers an index range disjoint from and adjacent to the
first read, so it never returns an event already returned. -/
theorem getEvents_cursor_pagination (job : JobRecord) (c : String) (n : Nat) (k : Int)
    (hk : jsParseInt c = some k) :
    (jsParseInt (getEvents job (some c) n).nextCursor
        = some ((min job.events.length
            ((if 0 ≤ k then k.toNat else 0) + max 1 n) : Nat) : Int)) ∧
    min k (job.events.length : Int)
        ≤ ((min job.events.length ((if 0 ≤ k then k.toNat else 0) + max 1 n) : Nat) : Int) ∧
    (∀ (job2 : JobRecord) (extra : List NormalizedEvent) (n2 : Nat),
      job2.events = job.events ++ extra →
      ∃ a b c2 : Nat, a ≤ b ∧ b ≤ c2 ∧
        (getEvents job (some c) n).events = (job2.events.take b).drop a ∧
        (getEvents job2 (some (getEvents job (some c) n).nextCursor) n2).events
          = (job2.events.take c2).drop b) := by
  have hc : ¬ c = "" := by
    intro h
    rw [h] at hk
    simp [jsParseInt] at hk
  have h1 := getEvents_some_eq job c n k hc hk
  refine ⟨?_, ?_, ?_⟩
  · rw [h1]
    exact jsParseInt_jsNatRepr _
  · by_cases hk0 : 0 ≤ k
    · have hs : (if 0 ≤ k then k.toNat else 0) = k.toNat := if_pos hk0
      have hcast : ((k.toNat : Nat) : Int) = k := Int.toNat_of_nonneg hk0
      rw [hs]
      omega
    · have hs : (if 0 ≤ k then k.toNat else 0) = 0 := if_neg hk0
      rw [hs]
      omega
  · intro job2 extra n2 h2
    have hL2 : job2.events.length = job.events.length + extra.length := by
      rw [h2, List.length_append]
    have hnc : (getEvents job (some c) n).nextCursor
        = jsNatRepr (min job.events.length ((if 0 ≤ k then k.toNat else 0) + max 1 n)) := by
      rw [h1]
    have hncne : ¬ (getEvents job (some c) n).nextCursor = "" := by
      rw [hnc]
      exact jsNatRepr_ne_empty _
    have hpark : jsParseInt (getEvents job (some c) n).nextCursor
        = some ((min job.events.length ((if 0 ≤ k then k.toNat else 0) + max 1 n) : Nat) : Int) := by
      rw [hnc]
      exact jsParseInt_jsNatRepr _
    have h2eq := getEvents_some_nat_eq job2 (getEvents job (some c) n).nextCursor n2 _ hncne hpark
    by_cases hsL : (if 0 ≤ k then k.toNat else 0) ≤ job.events.length
    · refine ⟨(if 0 ≤ k then k.toNat else 0),
        min job.events.length ((if 0 ≤ k then k.toNat else 0) + max 1 n),
        min job2.events.length
          (min job.events.length ((if 0 ≤ k then k.toNat else 0) + max 1 n) + max 1 n2),
        by omega, by omega, ?_, ?_⟩
      · rw [h1]
        have htk : job2.events.take
            (min job.events.length ((if 0 ≤ k then k.toNat else 0) + max 1 n))
            = job.events.take
                (min job.events.length ((if 0 ≤ k then k.toNat else 0) + max 1 n)) := by
          rw [h2]
          exact List.take_append_of_le_length (by omega)
        rw [htk]
      · rw [h2eq]
    · have heL : min job.events.length ((if 0 ≤ k then k.toNat else 0) + max 1 n)
          = job.events.length := by omega
      refine ⟨job.events.length, job.events.length,
        min job2.events.length (job.events.length + max 1 n2),
        le_refl _, by omega, ?_, ?_⟩
      · rw [h1, heL]
        have hempty1 : (job.events.take job.events.length).drop
            (if 0 ≤ k then k.toNat else 0) = ([] : List NormalizedEvent) := by
          apply List.drop_eq_nil_of_le
          simp
          omega
        have hempty2 : (job2.events.take job.events.length).drop job.events.length
            = ([] : List NormalizedEvent) := by
          apply List.drop_eq_nil_of_le
          simp
        rw [hempty1, hempty2]
      · rw [h2eq, heL]

/-- Claim C2 counterexample: with one event in the vector and the cursor
string 5, the parsed cursor is 5 but the returned nextCursor is 1, so the
claimed nextCursor-at-least-cursor inequality fails. -/
theorem getEvents_cursor_cx :
    jsParseInt ("5") = some 5 ∧
    (getEvents recRunning (some ("5")) 1).nextCursor = "1" ∧
    jsParseInt ("1") = some 1 ∧
    ¬ ((5 : Int) ≤ 1) := by
  refine ⟨by decide, by decide, by decide, by decide⟩

/-- Claim C2 witness: evaluated at cursor 0 over the one-event fixture. -/
theorem getEvents_cursor_pagination_witness :
    jsParseInt ("0") = some 0 ∧
    jsParseInt (getEvents recRunning (some ("0")) 1).nextCursor = some 1 := by
  refine ⟨by decide, ?_⟩
  have h := (getEvents_cursor_pagination recRunning ("0") 1 0 (by decide)).1
  simpa using h

/-- Shape of a successful spawn: one record appended. -/
theorem spawnJob_ok (env : Env) (jobs : List JobRecord) (jobId startedAt : String)
    (cmdArgs : List String) (meta : CodexJobSpawnMetadata)
    (h : ¬ parseMaxJobsFromEnv env ≤ runningCount jobs) :
    spawnJob env jobs jobId startedAt cmdArgs meta
      = .ok (jobs ++ [initialRecord jobId startedAt cmdArgs meta],
             { jobId := jobId, status := .running, startedAt := startedAt }) := by
  simp [spawnJob, h]

/-- Shape of a refused spawn: the admission error, no new record. -/
theorem spawnJob_err (env : Env) (jobs : List JobRecord) (jobId startedAt : String)
    (cmdArgs : List String) (meta : CodexJobSpawnMetadata)
    (h : parseMaxJobsFromEnv env ≤ runningCount jobs) :
    spawnJob env jobs jobId startedAt cmdArgs meta
      = .error ("Too many concurrent jobs: " ++ jsNatRepr (runningCount jobs)
          ++ " running (max " ++ jsNatRepr (parseMaxJobsFromEnv env)
          ++ "). Set CODEX_MCP_MAX_JOBS to override.") := by
  simp [spawnJob, h]

/-- Claim C6 (amended): after the bounded wait, a post-wait status of done or
failed yields a refusal whose reason mentions natural completion while
waiting for cancellation, with no spawn and the registry unchanged; for any
other post-wait status a respawn is attempted: it creates exactly one new job
when the admission gate passes and otherwise raises an error, creating no
job. -/
theorem interruptAfterWait_cases (env : Env) (jobs : List JobRecord) (previousJobId : String)
    (statusAfter : JobStatus) (spawnMeta : CodexJobSpawnMetadata)
    (overrides : InterruptOverrides) (tail : List NormalizedEvent)
    (newPrompt newJobId newStartedAt : String) :
    (statusAfter = .done ∨ statusAfter = .failed →
      interruptAfterWait env jobs previousJobId statusAfter spawnMeta overrides tail
          newPrompt newJobId newStartedAt
        = (jobs, .refused statusAfter
            ("Refusing to respawn: job completed naturally while waiting for cancellation")) ∧
      strContains
        ("Refusing to respawn: job completed naturally while waiting for cancellation")
        ("job completed naturally while waiting for cancellation") = true) ∧
    (¬ (statusAfter = .done ∨ statusAfter = .failed) →
      (runningCount jobs < parseMaxJobsFromEnv env →
        ∃ rec : JobRecord,
          interruptAfterWait env jobs previousJobId statusAfter spawnMeta overrides tail
              newPrompt newJobId newStartedAt
            = (jobs ++ [rec], .respawned statusAfter newJobId)) ∧
      (parseMaxJobsFromEnv env ≤ runningCount jobs →
        ∃ msg,
          interruptAfterWait env jobs previousJobId statusAfter spawnMeta overrides tail
              newPrompt newJobId newStartedAt
            = (jobs, .errored msg))) := by
  refine ⟨?_, ?_⟩
  · intro h
    exact ⟨by simp [interruptAfterWait, h], by decide⟩
  · intro h
    constructor
    · intro hcap
      have hn : ¬ (parseMaxJobsFromEnv env ≤ runningCount jobs) := by omega
      refine ⟨initialRecord newJobId newStartedAt
          (spawnWithEffectivePlan (buildInterruptPrompt previousJobId tail newPrompt)
            (interruptEffective spawnMeta.effective overrides) spawnMeta.label).1
          (spawnWithEffectivePlan (buildInterruptPrompt previousJobId tail newPrompt)
            (interruptEffective spawnMeta.effective overrides) spawnMeta.label).2, ?_⟩
      simp only [interruptAfterWait, if_neg h, spawnCodexJobWithEffectiveOptions,
        spawnJob_ok env jobs newJobId newStartedAt _ _ hn]
    · intro hcap
      refine ⟨"Too many concurrent jobs: " ++ jsNatRepr (runningCount jobs)
        ++ " running (max " ++ jsNatRepr (parseMaxJobsFromEnv env)
        ++ "). Set CODEX_MCP_MAX_JOBS to override.", ?_⟩
      simp only [interruptAfterWait, if_neg h, spawnCodexJobWithEffectiveOptions,
        spawnJob_err env jobs newJobId newStartedAt _ _ hcap]

/-- Claim C6 witness: a job observed done after the wait produces the refusal
and leaves the registry untouched. -/
theorem interruptAfterWait_witness :
    interruptAfterWait envNone [] ("j0") .done metaEx ovEx [] ("np") ("j1") ("t1")
      = ([], .refused .done
          ("Refusing to respawn: job completed naturally while waiting for cancellation")) :=
  ((interruptAfterWait_cases envNone [] ("j0") .done metaEx ovEx [] ("np")
    ("j1") ("t1")).1 (Or.inl rfl)).1

/-- Claim C6 counterexample: with the cap forced to one and the interrupted
job still running after the wait, the respawn attempt hits the admission gate:
the handler errors and no new job is spawned, contradicting the unconditional
respawn in the claim. -/
theorem interruptAfterWait_cx :
    (interruptAfterWait envCap1 [recRunning] ("job-1") .running metaEx ovEx []
        ("new prompt") ("job-2") ("t2")).1 = [recRunning] ∧
    ∃ msg,
      (interruptAfterWait envCap1 [recRunning] ("job-1") .running metaEx ovEx []
          ("new prompt") ("job-2") ("t2")).2 = .errored msg ∧
      strContains msg ("Too many concurrent jobs") = true := by
  refine ⟨rfl, ⟨_, rfl, by decide⟩⟩
